import Mathlib

set_option maxRecDepth 8000

/-!
Shallow embedding of `src/clickHearts.js` and verification of the harvest-loop
specification.

The script drives a live DOM: it repeatedly scans for heart icons matching
`i.ud.ud-heart:not(.filled)`, clicks the visible ones, scrolls towards the
bottom of the page, waits for a MutationObserver signal (or a timeout), and
stops once a no-progress counter reaches `maxScrollsWithoutNewHearts`.

Modelling conventions:
* A heart element is reduced to the two attributes the script reads:
  `visible` (offsetParent is not null) and `filled` (classList contains the
  class "filled").
* The host page is an explicit parameter `HostEnv`: the effect of a scroll
  command (including the `aggressiveScrollPause` that follows it), the outcome
  of one observer wait (`none` = the 7s timeout fired with no qualifying
  mutation, `some p` = a qualifying childList mutation fired and the page is
  now `p`), and the effect of `heartIcon.click()` on the clicked element
  (`Except Unit Elem`, where `.error` models a thrown exception that the
  script catches and logs).  Every host interaction is indexed by a tick
  counter so time-dependent hosts are expressible.
* The source iterates a static `querySelectorAll` NodeList while re-checking
  `classList.contains("filled")` per element.  A click mutates only the
  clicked element and the host is quiescent during the per-click delays, so
  the snapshot iteration coincides with a single left-to-right traversal of
  the heart list; the embedding uses that traversal directly.
* The two scroll targets (the `.infinite-scroll.scrolling-grid` element and
  `document.documentElement`) read the same three quantities (scrollTop,
  clientHeight, scrollHeight) through different names; the model keeps one
  scroll state.  The JS comparisons `a < h - 5` and `a >= h - 5` over
  unbounded JS numbers are rendered as `a + 5 < h` and `a + 5 >= h` in Nat,
  which agree over the integers.
* The while loop has no bound in the source (it can genuinely run forever),
  so the embedding is fuel-indexed and returns `Option`; `none` means the
  run did not finish within the given number of loop iterations.
* The run keeps an event trace (clicks, the inter-click sleeps, scroll
  commands, observer subscribe/unsubscribe, and the per-iteration counter
  log printed at source line 232).  `iters` counts executed while-loop
  iterations.  Both are ghost observations used only to state properties.
-/

/-- Delay between clicks, clickHearts.js line 35. -/
def delayBetweenClicks : Nat := 100

/-- Time to wait for mutations after a scroll, clickHearts.js line 36. -/
def mutationCheckTimeout : Nat := 7000

/-- Stop once this many scrolls found no new hearts, clickHearts.js line 37. -/
def maxScrollsWithoutNewHearts : Nat := 4

/-- Pause during aggressive scroll attempts, clickHearts.js line 38. -/
def aggressiveScrollPause : Nat := 300

/-- Budget of consecutive stuck scroll attempts, clickHearts.js line 39. -/
def maxAggressiveScrollAttemptsAtBottom : Nat := 3

/-- A heart icon as the script observes it: `visible` is
`offsetParent != null`, `filled` is membership of the "filled" class. -/
structure Elem where
  visible : Bool
  filled : Bool
deriving DecidableEq, Repr

/-- The scroll state and heart contents of the page. -/
structure PageState where
  hearts : List Elem
  scrollTop : Nat
  scrollHeight : Nat
  clientHeight : Nat
deriving DecidableEq, Repr

/-- Observable events of a run (ghost trace). `ctr n` mirrors the
"Scrolls without new hearts: n/4" log at source line 232. -/
inductive Ev where
  | clickOk (idx : Nat)
  | clickErr (idx : Nat)
  | sleep (ms : Nat)
  | scrollCmd
  | observe
  | disconnect
  | ctr (n : Nat)
deriving DecidableEq, Repr

/-- The host page, supplying every side-effecting primitive the script calls
(section 6 of the spec: the DOM is an external collaborator). -/
structure HostEnv where
  onScroll : Nat → PageState → PageState
  onWait : Nat → PageState → Option PageState
  onClick : Nat → Elem → Except Unit Elem

/-- Result of one `processVisibleHearts` pass: the value of
`heartsClickedInThisPass`, the hearts after the pass, the advanced tick, and
the events of the pass. -/
structure ScanResult where
  clicked : Nat
  hearts : List Elem
  tick : Nat
  trace : List Ev
deriving DecidableEq, Repr

/-- `processVisibleHearts` (clickHearts.js lines 53-77).  The NodeList
`querySelectorAll("i.ud.ud-heart:not(.filled)")` drops elements with the
filled class (first branch); the loop body skips an element when
`offsetParent === null || classList.contains("filled")` (second branch);
otherwise it clicks inside try/catch: on success `totalHeartsClicked++`,
`heartsClickedInThisPass++` and a `delayBetweenClicks` sleep, on a thrown
exception the error is logged and the loop continues.  `i` is the index of
the first list element within the whole document (for event bookkeeping). -/
def processVisibleHearts (env : HostEnv) : Nat → Nat → List Elem → ScanResult
  | tick, _, [] => ⟨0, [], tick, []⟩
  | tick, i, e :: rest =>
    if e.filled then
      let r := processVisibleHearts env tick (i + 1) rest
      ⟨r.clicked, e :: r.hearts, r.tick, r.trace⟩
    else if !e.visible || e.filled then
      let r := processVisibleHearts env tick (i + 1) rest
      ⟨r.clicked, e :: r.hearts, r.tick, r.trace⟩
    else
      match env.onClick tick e with
      | .ok e' =>
        let r := processVisibleHearts env (tick + 1) (i + 1) rest
        ⟨r.clicked + 1, e' :: r.hearts, r.tick,
          .clickOk i :: .sleep delayBetweenClicks :: r.trace⟩
      | .error _ =>
        let r := processVisibleHearts env (tick + 1) (i + 1) rest
        ⟨r.clicked, e :: r.hearts, r.tick, .clickErr i :: r.trace⟩

/-- An element the scan acts on: matched by the selector (not filled) and
visible. -/
def actionable (e : Elem) : Bool := e.visible && !e.filled

/-- Indices (starting at `i`) of the actionable elements of a list. -/
def actionableIdxs : Nat → List Elem → List Nat
  | _, [] => []
  | i, e :: rest =>
    if actionable e then i :: actionableIdxs (i + 1) rest
    else actionableIdxs (i + 1) rest

/-- Apply the per-click host reaction `f` to every actionable element. -/
def applyClicks (f : Elem → Elem) (hs : List Elem) : List Elem :=
  hs.map fun e => if actionable e then f e else e

/-- The trace of a scan pass in which every click succeeds: each clicked
index followed by the inter-click sleep. -/
def okTrace : List Nat → List Ev
  | [] => []
  | j :: rest => .clickOk j :: .sleep delayBetweenClicks :: okTrace rest

/-- Is the event a successful (non-throwing) click invocation? -/
def isClickOk : Ev → Bool
  | .clickOk _ => true
  | _ => false

/-- Number of successful (non-throwing) click invocations in a trace. -/
def countOk (t : List Ev) : Nat := t.countP isClickOk

/-- The index of a click invocation event (successful or throwing). -/
def clickIdx : Ev → Option Nat
  | .clickOk i => some i
  | .clickErr i => some i
  | _ => none

/-- Indices of all click invocations (successful or throwing) in a trace. -/
def clickIdxs (t : List Ev) : List Nat := t.filterMap clickIdx

/-- Observer discipline check.  Starting from subscription state `a`
(`true` = an observer subscription is outstanding), scan the trace:
subscribing while already subscribed is a violation (`none`); otherwise the
result is the subscription state after the trace. -/
def obsScan : Bool → List Ev → Option Bool
  | a, [] => some a
  | a, .observe :: t => if a then none else obsScan true t
  | _, .disconnect :: t => obsScan false t
  | a, _ :: t => obsScan a t

/-- Is the event compatible with a logged counter bound of `b`? -/
def ctrLe (b : Nat) : Ev → Bool
  | .ctr n => decide (n ≤ b)
  | _ => true

/-- Every counter value logged in the trace is at most `b`. -/
def ctrAllLe (b : Nat) (t : List Ev) : Bool := t.all (ctrLe b)

/-- Events emitted by a scan pass (no observer or counter events). -/
def scanEv : Ev → Bool
  | .clickOk _ => true
  | .clickErr _ => true
  | .sleep _ => true
  | _ => false

/-- `canStillScroll` (clickHearts.js lines 133-135):
`scrollTop + clientHeight < scrollHeight - 5`, rendered in Nat as
`scrollTop + clientHeight + 5 < scrollHeight`. -/
def canStillScroll (p : PageState) : Bool :=
  p.scrollTop + p.clientHeight + 5 < p.scrollHeight

/-- Counter update of the bottom-check branch (clickHearts.js lines 140-147):
reset on progress, increment when nothing was found and the previous wait
cycle processed no hearts. -/
def bottomCheckUpdate (found : Nat) (processedInCycle : Bool) (c : Nat) : Nat :=
  if 0 < found then 0 else if processedInCycle then c else c + 1

/-- Counter update after the wait phase (clickHearts.js lines 219-231):
reset when the observer processed hearts or the explicit re-check found some,
increment otherwise. -/
def postWaitUpdate (processedInCycle : Bool) (found : Nat) (c : Nat) : Nat :=
  if processedInCycle then 0 else if 0 < found then 0 else c + 1

/-- Result of the aggressive scroll phase: the page afterwards, the advanced
tick, `actualScrollHappenedInAggressiveLoop`, the final value of
`aggressiveScrollAttempts`, whether the phase ended through the
at-bottom-and-unchanged break (lines 182-186) rather than through the
attempt budget, and the scroll commands issued. -/
structure AggResult where
  page : PageState
  tick : Nat
  moved : Bool
  attempts : Nat
  stabilized : Bool
  trace : List Ev
deriving DecidableEq, Repr

/-- The aggressive scroll loop (clickHearts.js lines 159-188).  Each
iteration records the current position, issues a scroll-to-bottom command,
pauses `aggressiveScrollPause` (both folded into `env.onScroll`), and
re-reads the position: an advance of at most 5 is jitter and consumes one
attempt, a real advance resets the attempt count; when the page reports
being at its effective bottom and the position did not advance, the loop
breaks early.  `previousScrollTopForAggressiveScroll` is re-assigned at the
top of every iteration (line 160), so it is a per-iteration local here.
Fuel-indexed: `none` means the loop did not finish within `fuel`
iterations. -/
def aggressiveLoop (env : HostEnv) :
    Nat → Nat → PageState → Nat → Bool → Option AggResult
  | 0, _, _, _, _ => none
  | fuel + 1, tick, page, attempts, moved =>
    if maxAggressiveScrollAttemptsAtBottom ≤ attempts then
      some ⟨page, tick, moved, attempts, false, []⟩
    else
      let prev := page.scrollTop
      let page1 := env.onScroll tick page
      let newTop := page1.scrollTop
      let stalled : Bool := newTop ≤ prev + 5
      let attempts1 := if stalled then attempts + 1 else 0
      let moved1 := if stalled then moved else true
      if (page1.scrollHeight ≤ newTop + page1.clientHeight + 5) && stalled then
        some ⟨page1, tick + 1, moved1, attempts1, true, [.scrollCmd]⟩
      else
        match aggressiveLoop env fuel (tick + 1) page1 attempts1 moved1 with
        | none => none
        | some r => some { r with trace := .scrollCmd :: r.trace }

/-- Mutable state of `clickAllHearts`: the page, the host-interaction tick,
`scrollsWithoutNewHearts`, `totalHeartsClicked`,
`currentScrollOperation.processedHeartsInCycle`, the ghost count of executed
while-loop iterations, and the ghost event trace. -/
structure St where
  page : PageState
  tick : Nat
  scrollsWithoutNewHearts : Nat
  totalHeartsClicked : Nat
  processedHeartsInCycle : Bool
  iters : Nat
  trace : List Ev
deriving DecidableEq, Repr

/-- The bottom-check branch (clickHearts.js lines 138-147): an extra scan
with its counter update, entered when `canStillScroll` is false. -/
def bottomCheckPhase (env : HostEnv) (st : St) : St :=
  let r := processVisibleHearts env st.tick 0 st.page.hearts
  { st with
    page := { st.page with hearts := r.hearts }
    tick := r.tick
    totalHeartsClicked := st.totalHeartsClicked + r.clicked
    scrollsWithoutNewHearts :=
      bottomCheckUpdate r.clicked st.processedHeartsInCycle
        st.scrollsWithoutNewHearts
    trace := st.trace ++ r.trace }

/-- The observer wait (clickHearts.js lines 201-217): reset the
processed-in-cycle flag, subscribe, then either a qualifying mutation (a
300ms settle followed by the observer scan of lines 99-111, which sets the
flag when it clicked something) or the 7s timeout; finally unsubscribe. -/
def waitPhase (env : HostEnv) (st : St) : St :=
  let st3 := { st with
    processedHeartsInCycle := false
    trace := st.trace ++ [Ev.observe] }
  let st4 :=
    match env.onWait st3.tick st3.page with
    | none => { st3 with tick := st3.tick + 1 }
    | some page' =>
      let r := processVisibleHearts env (st3.tick + 1) 0 page'.hearts
      { st3 with
        page := { page' with hearts := r.hearts }
        tick := r.tick
        totalHeartsClicked := st3.totalHeartsClicked + r.clicked
        processedHeartsInCycle := 0 < r.clicked
        trace := st3.trace ++ r.trace }
  { st4 with trace := st4.trace ++ [Ev.disconnect] }

/-- The post-wait counter update (clickHearts.js lines 219-231) with its
explicit re-check scan, followed by the counter log of line 232. -/
def postWaitPhase (env : HostEnv) (st : St) : St :=
  let st6 :=
    if st.processedHeartsInCycle then
      { st with
        scrollsWithoutNewHearts :=
          postWaitUpdate true 0 st.scrollsWithoutNewHearts }
    else
      let r := processVisibleHearts env st.tick 0 st.page.hearts
      { st with
        page := { st.page with hearts := r.hearts }
        tick := r.tick
        totalHeartsClicked := st.totalHeartsClicked + r.clicked
        scrollsWithoutNewHearts :=
          postWaitUpdate false r.clicked st.scrollsWithoutNewHearts
        trace := st.trace ++ r.trace }
  { st6 with trace := st6.trace ++ [Ev.ctr st6.scrollsWithoutNewHearts] }

/-- One iteration of the main while loop (clickHearts.js lines 127-233),
entered with the loop condition already known true.  Phases, in source
order: the can-still-scroll check; if at the bottom, the bottom-check scan
with a possible break (lines 138-152, returned as `.inl`); the aggressive
scroll phase (`fuel` bounds its iterations); the observer wait; the
post-wait counter update.  `.inr` carries the state into the next loop
test. -/
def loopBody (env : HostEnv) (fuel : Nat) (st : St) : Option (St ⊕ St) :=
  let st0 := { st with iters := st.iters + 1 }
  let can := canStillScroll st0.page
  let st1 := if can then st0 else bottomCheckPhase env st0
  if can = false ∧ maxScrollsWithoutNewHearts ≤ st1.scrollsWithoutNewHearts
  then some (.inl st1)
  else
    match aggressiveLoop env fuel st1.tick st1.page 0 false with
    | none => none
    | some ar =>
      let st2 := { st1 with
        page := ar.page
        tick := ar.tick
        trace := st1.trace ++ ar.trace }
      some (.inr (postWaitPhase env (waitPhase env st2)))

/-- The state carried by either outcome of a loop iteration. -/
def outSt : St ⊕ St → St
  | .inl s => s
  | .inr s => s

/-- The main while loop of `clickAllHearts` (clickHearts.js lines 127-233).
One fuel unit is one loop iteration; the loop exits when the counter
reaches the threshold, either at the loop test or through the break inside
the body. -/
def mainLoop (env : HostEnv) : Nat → St → Option St
  | 0, _ => none
  | fuel + 1, st =>
    if maxScrollsWithoutNewHearts ≤ st.scrollsWithoutNewHearts then some st
    else
      match loopBody env fuel st with
      | none => none
      | some (.inl s) => some s
      | some (.inr s) => mainLoop env fuel s

/-- `clickAllHearts` (clickHearts.js lines 34-243).  Initial state, the
initial scan of lines 118-125 (a productive scan resets the counter, an
empty one leaves it untouched - the increment at line 124 is commented out),
the main loop, the final `observer.disconnect()` of line 235, and the
returned summary string of line 242. -/
def clickAllHearts (env : HostEnv) (fuel : Nat) (page : PageState) :
    Option (String × St) :=
  let stInit : St := ⟨page, 0, 0, 0, false, 0, []⟩
  let r := processVisibleHearts env stInit.tick 0 page.hearts
  let st1 : St := { stInit with
    page := { page with hearts := r.hearts }
    tick := r.tick
    totalHeartsClicked := r.clicked
    scrollsWithoutNewHearts :=
      if 0 < r.clicked then 0 else stInit.scrollsWithoutNewHearts
    trace := r.trace }
  match mainLoop env fuel st1 with
  | none => none
  | some st =>
    let stF := { st with trace := st.trace ++ [Ev.disconnect] }
    some ("Total hearts clicked: " ++ toString stF.totalHeartsClicked, stF)

/-- Host that never grows: scroll commands leave the page unchanged, no
qualifying mutation ever fires, clicks succeed but the host never adds the
"filled" class to a clicked heart. -/
def envNever : HostEnv where
  onScroll := fun _ p => p
  onWait := fun _ _ => none
  onClick := fun _ e => .ok e

/-- Host whose page keeps growing: every scroll command advances the
position by 6 while the total height grows in step, so the aggressive loop
always observes fresh movement and never reaches the bottom. -/
def envGrow : HostEnv where
  onScroll := fun _ p =>
    { p with scrollTop := p.scrollTop + 6, scrollHeight := p.scrollHeight + 6 }
  onWait := fun _ _ => none
  onClick := fun _ e => .ok e

/-- Host whose click primitive always throws. -/
def envThrow : HostEnv where
  onScroll := fun _ p => p
  onWait := fun _ _ => none
  onClick := fun _ _ => .error ()

/-- Host whose clicks succeed and mark the clicked heart as filled, and
whose page otherwise never changes. -/
def envFill : HostEnv where
  onScroll := fun _ p => p
  onWait := fun _ _ => none
  onClick := fun _ e => .ok { e with filled := true }

/-- Host for the bounded-scroll witness: every scroll command lands at
position 100 (monotone from any position at most 100, never above 100). -/
def envBound : HostEnv where
  onScroll := fun _ p => { p with scrollTop := 100 }
  onWait := fun _ _ => none
  onClick := fun _ e => .ok e

/-- Two-page host: clicks fill hearts; every scroll command lands at the
effective bottom; the first wait (while the page still holds only the `a`
hearts of page one) reveals `b` fresh visible unfilled hearts and taller
content, and every later wait times out. -/
def envTwoPage (a b : Nat) : HostEnv where
  onScroll := fun _ p => { p with scrollTop := p.scrollHeight - p.clientHeight }
  onWait := fun _ p =>
    if p.hearts.length = a then
      some { p with
        hearts := p.hearts ++ List.replicate b ⟨true, false⟩
        scrollHeight := p.scrollHeight + 200 }
    else none
  onClick := fun _ e => .ok { e with filled := true }

/-- Page one of the two-page scenario: `a` visible unfilled hearts, a
200-pixel document seen through a 100-pixel viewport, scrolled to the top. -/
def twoPageStart (a : Nat) : PageState :=
  ⟨List.replicate a ⟨true, false⟩, 0, 200, 100⟩

/-- An already-exhausted page (no unfilled hearts) that still reports
scrollable room: viewport 100 of 1000, at the top. -/
def pageOpen : PageState := ⟨[], 0, 1000, 100⟩

/-- An already-exhausted page that reports no scrollable room: scrolled to
900 with viewport 100 of 1000. -/
def pageBottom : PageState := ⟨[], 900, 1000, 100⟩

/-- Start page for the ever-growing host. -/
def pageGrow : PageState := ⟨[], 0, 10000, 100⟩

/-- The aggressive scroll phase against the ever-growing host never
finishes, whatever fuel it is given. -/
def aggDivergesOnGrowingPage : Prop :=
  ∀ fuel, aggressiveLoop envGrow fuel 0 pageGrow 0 false = none

/-- Combined check used for claim C7: the phase ended through the
stabilized-at-bottom break or with the attempt budget exhausted, and issued
at most `bound` scroll commands. -/
def aggOutcome (bound : Nat) (r : AggResult) : Bool :=
  (r.stabilized || decide (maxAggressiveScrollAttemptsAtBottom ≤ r.attempts))
    && decide (r.trace.length ≤ bound)

/-- Combined check used for claim C2 over a final state: the final counter
and every logged counter value are at most the threshold. -/
def counterOk (st : St) : Bool :=
  decide (st.scrollsWithoutNewHearts ≤ maxScrollsWithoutNewHearts)
    && ctrAllLe maxScrollsWithoutNewHearts st.trace

/-! ### Lemmas about single scan passes -/

/-- A scan pass whose clicks all succeed with host reaction `f` clicks
exactly the actionable elements, in order, with the inter-click sleep after
each click. -/
theorem scan_ok (env : HostEnv) (f : Elem → Elem)
    (h : ∀ t e, env.onClick t e = Except.ok (f e)) :
    ∀ (tick i : Nat) (hs : List Elem),
    processVisibleHearts env tick i hs =
      ⟨(actionableIdxs i hs).length, applyClicks f hs,
        tick + (actionableIdxs i hs).length, okTrace (actionableIdxs i hs)⟩ := by
  intro tick i hs
  induction hs generalizing tick i with
  | nil => rfl
  | cons e rest ih =>
    by_cases hf : e.filled
    · have hact : actionable e = false := by simp [actionable, hf]
      simp [processVisibleHearts, hf, hact, actionableIdxs, applyClicks, ih]
    · by_cases hv : e.visible
      · have hact : actionable e = true := by simp [actionable, hf, hv]
        simp [processVisibleHearts, hf, hv, hact, actionableIdxs, applyClicks,
          okTrace, h, ih]
        omega
      · have hact : actionable e = false := by
          simp [actionable, hv]
        simp [processVisibleHearts, hf, hv, hact, actionableIdxs, applyClicks, ih]

/-- A scan pass over a DOM with no element matching the unfilled selector
returns zero, changes nothing, and emits no event. -/
theorem scan_filled (env : HostEnv) :
    ∀ (tick i : Nat) (hs : List Elem), (∀ e ∈ hs, e.filled = true) →
    processVisibleHearts env tick i hs = ⟨0, hs, tick, []⟩ := by
  intro tick i hs
  induction hs generalizing tick i with
  | nil => intro _; rfl
  | cons e rest ih =>
    intro h
    have he : e.filled = true := h e (List.mem_cons_self e rest)
    have hr := ih tick (i + 1) fun x hx => h x (List.mem_cons_of_mem e hx)
    simp [processVisibleHearts, he, hr]

/-- A scan pass against an always-throwing click primitive acts on nothing:
zero count, unchanged DOM, no successful click in the trace. -/
theorem scan_err (env : HostEnv)
    (h : ∀ t e, env.onClick t e = Except.error ()) :
    ∀ (tick i : Nat) (hs : List Elem),
    (processVisibleHearts env tick i hs).clicked = 0 ∧
    (processVisibleHearts env tick i hs).hearts = hs ∧
    countOk (processVisibleHearts env tick i hs).trace = 0 := by
  intro tick i hs
  induction hs generalizing tick i with
  | nil => exact ⟨rfl, rfl, rfl⟩
  | cons e rest ih =>
    by_cases hf : e.filled
    · simpa [processVisibleHearts, hf, countOk, List.countP_cons] using ih tick (i + 1)
    · by_cases hv : e.visible
      · simpa [processVisibleHearts, hf, hv, h, countOk, List.countP_cons,
          isClickOk] using ih (tick + 1) (i + 1)
      · simpa [processVisibleHearts, hf, hv, countOk, List.countP_cons]
          using ih tick (i + 1)

/-- The per-pass count equals the number of successful clicks in the pass
trace, for every host. -/
theorem scan_countOk (env : HostEnv) :
    ∀ (tick i : Nat) (hs : List Elem),
    countOk (processVisibleHearts env tick i hs).trace =
      (processVisibleHearts env tick i hs).clicked := by
  intro tick i hs
  induction hs generalizing tick i with
  | nil => rfl
  | cons e rest ih =>
    by_cases hf : e.filled
    · simpa [processVisibleHearts, hf] using ih tick (i + 1)
    · by_cases hv : e.visible
      · cases hclick : env.onClick tick e with
        | ok e' =>
          simpa [processVisibleHearts, hf, hv, hclick, countOk,
            List.countP_cons, isClickOk] using ih (tick + 1) (i + 1)
        | error u =>
          simpa [processVisibleHearts, hf, hv, hclick, countOk,
            List.countP_cons, isClickOk] using ih (tick + 1) (i + 1)
      · simpa [processVisibleHearts, hf, hv] using ih tick (i + 1)

/-- The click invocations of a scan pass are exactly the actionable
elements, in document order, for every host (throwing or not). -/
theorem scan_clickIdxs (env : HostEnv) :
    ∀ (tick i : Nat) (hs : List Elem),
    clickIdxs (processVisibleHearts env tick i hs).trace =
      actionableIdxs i hs := by
  intro tick i hs
  induction hs generalizing tick i with
  | nil => rfl
  | cons e rest ih =>
    by_cases hf : e.filled
    · have hact : actionable e = false := by simp [actionable, hf]
      simpa [processVisibleHearts, hf, actionableIdxs, hact] using ih tick (i + 1)
    · by_cases hv : e.visible
      · have hact : actionable e = true := by simp [actionable, hf, hv]
        cases hclick : env.onClick tick e with
        | ok e' =>
          simpa [processVisibleHearts, hf, hv, hclick, actionableIdxs, hact,
            clickIdxs, clickIdx] using ih (tick + 1) (i + 1)
        | error u =>
          simpa [processVisibleHearts, hf, hv, hclick, actionableIdxs, hact,
            clickIdxs, clickIdx] using ih (tick + 1) (i + 1)
      · have hact : actionable e = false := by simp [actionable, hv]
        simpa [processVisibleHearts, hf, hv, actionableIdxs, hact]
          using ih tick (i + 1)

/-- Scan passes emit only click and sleep events. -/
theorem scan_scanEv (env : HostEnv) :
    ∀ (tick i : Nat) (hs : List Elem),
    ∀ ev ∈ (processVisibleHearts env tick i hs).trace, scanEv ev = true := by
  intro tick i hs
  induction hs generalizing tick i with
  | nil => intro ev hev; simp [processVisibleHearts] at hev
  | cons e rest ih =>
    intro ev hev
    by_cases hf : e.filled
    · simp only [processVisibleHearts, hf, if_true] at hev
      exact ih tick (i + 1) ev hev
    · by_cases hv : e.visible
      · cases hclick : env.onClick tick e with
        | ok e' =>
          simp only [processVisibleHearts, hf, hv, hclick] at hev
          simp at hev
          rcases hev with h1 | h1 | h1
          · simp [h1, scanEv]
          · simp [h1, scanEv]
          · exact ih (tick + 1) (i + 1) ev h1
        | error u =>
          simp only [processVisibleHearts, hf, hv, hclick] at hev
          simp at hev
          rcases hev with h1 | h1
          · simp [h1, scanEv]
          · exact ih (tick + 1) (i + 1) ev h1
      · simp only [processVisibleHearts, hf, hv] at hev
        simp at hev
        exact ih tick (i + 1) ev hev

/-! ### Trace algebra -/

theorem countOk_append (t1 t2 : List Ev) :
    countOk (t1 ++ t2) = countOk t1 + countOk t2 := by
  simp [countOk, List.countP_append]

theorem obsScan_append (t1 t2 : List Ev) :
    ∀ a, obsScan a (t1 ++ t2) = (obsScan a t1).bind fun a2 => obsScan a2 t2 := by
  induction t1 with
  | nil => intro a; rfl
  | cons e t ih => intro a; cases e <;> cases a <;> simp [obsScan, ih]

theorem obsScan_scanEvs (t : List Ev) (ht : ∀ ev ∈ t, scanEv ev = true) :
    ∀ a, obsScan a t = some a := by
  induction t with
  | nil => intro a; rfl
  | cons e rest ih =>
    intro a
    have he := ht e (List.mem_cons_self e rest)
    have hr : ∀ ev ∈ rest, scanEv ev = true := fun ev hev =>
      ht ev (List.mem_cons_of_mem e hev)
    cases e <;> simp [scanEv] at he <;> simp [obsScan, ih hr]

theorem ctrAllLe_append (b : Nat) (t1 t2 : List Ev) :
    ctrAllLe b (t1 ++ t2) = (ctrAllLe b t1 && ctrAllLe b t2) := by
  simp [ctrAllLe, List.all_append]

theorem ctrAllLe_scanEvs (b : Nat) (t : List Ev)
    (ht : ∀ ev ∈ t, scanEv ev = true) : ctrAllLe b t = true := by
  simp only [ctrAllLe, List.all_eq_true]
  intro ev hev
  have h1 := ht ev hev
  cases ev <;> simp_all [scanEv, ctrLe]

theorem scrollOnly_facts (b : Nat) (t : List Ev)
    (ht : ∀ ev ∈ t, ev = Ev.scrollCmd) :
    countOk t = 0 ∧ ctrAllLe b t = true ∧ ∀ a, obsScan a t = some a := by
  induction t with
  | nil => exact ⟨rfl, rfl, fun _ => rfl⟩
  | cons e rest ih =>
    have he := ht e (List.mem_cons_self e rest)
    subst he
    obtain ⟨h1, h2, h3⟩ := ih fun ev hev => ht ev (List.mem_cons_of_mem _ hev)
    refine ⟨?_, ?_, fun a => ?_⟩
    · simpa [countOk, List.countP_cons, isClickOk] using h1
    · simpa [ctrAllLe, ctrLe] using h2
    · simpa [obsScan] using h3 a

/-! ### The aggressive scroll phase -/

/-- The aggressive scroll phase emits only scroll commands. -/
theorem agg_trace_scroll (env : HostEnv) :
    ∀ (fuel tick : Nat) (page : PageState) (att : Nat) (m : Bool)
      (r : AggResult),
    aggressiveLoop env fuel tick page att m = some r →
    ∀ ev ∈ r.trace, ev = Ev.scrollCmd := by
  intro fuel
  induction fuel with
  | zero => intro tick page att m r h; simp [aggressiveLoop] at h
  | succ n ih =>
    intro tick page att m r h
    simp only [aggressiveLoop] at h
    split at h
    · injection h with h
      subst h
      intro ev hev
      simp at hev
    · split at h
      · injection h with h
        subst h
        intro ev hev
        simpa using hev
      · split at h
        · exact absurd h (by simp)
        · rename_i r' heq
          injection h with h
          subst h
          intro ev hev
          rcases List.mem_cons.mp hev with h1 | h1
          · exact h1
          · exact ih _ _ _ _ _ heq ev h1

/-- One-step unfolding of the aggressive scroll loop. -/
theorem aggressiveLoop_succ (env : HostEnv) (fuel tick : Nat)
    (page : PageState) (att : Nat) (m : Bool) :
    aggressiveLoop env (fuel + 1) tick page att m =
      if maxAggressiveScrollAttemptsAtBottom ≤ att then
        some ⟨page, tick, m, att, false, []⟩
      else
        let page1 := env.onScroll tick page
        let stalled : Bool := page1.scrollTop ≤ page.scrollTop + 5
        if (page1.scrollHeight ≤ page1.scrollTop + page1.clientHeight + 5)
            && stalled then
          some ⟨page1, tick + 1, (if stalled then m else true),
            (if stalled then att + 1 else 0), true, [.scrollCmd]⟩
        else
          match aggressiveLoop env fuel (tick + 1) page1
              (if stalled then att + 1 else 0)
              (if stalled then m else true) with
          | none => none
          | some r => some { r with trace := .scrollCmd :: r.trace } := rfl

/-- Against the ever-growing host, every aggressive-loop iteration observes
fresh movement away from the bottom, so no amount of fuel finishes the
phase. -/
theorem agg_grow_none :
    ∀ (fuel tick : Nat) (page : PageState) (m : Bool),
    page.scrollTop + page.clientHeight + 5 < page.scrollHeight →
    aggressiveLoop envGrow fuel tick page 0 m = none := by
  intro fuel
  induction fuel with
  | zero => intro tick page m h; rfl
  | succ n ih =>
    intro tick page m h
    have hrec := ih (tick + 1)
      { page with scrollTop := page.scrollTop + 6,
                  scrollHeight := page.scrollHeight + 6 }
      true (by simp; omega)
    have hns : ¬ (page.scrollTop + 6 ≤ page.scrollTop + 5) := by omega
    have hnb : ¬ (page.scrollHeight + 6 ≤
        page.scrollTop + 6 + page.clientHeight + 5) := by omega
    rw [aggressiveLoop_succ]
    rw [if_neg (by decide : ¬ (maxAggressiveScrollAttemptsAtBottom ≤ 0))]
    simp only [envGrow] at hrec ⊢
    simp [hns, hnb, hrec]

/-- Monotone and bounded scroll responses force the aggressive loop to
finish: the measure combines the remaining attempt budget with the
remaining room below the bound. -/
theorem agg_mono_some (env : HostEnv) (B : Nat)
    (hM : ∀ t p, p.scrollTop ≤ B →
      p.scrollTop ≤ (env.onScroll t p).scrollTop ∧
      (env.onScroll t p).scrollTop ≤ B) :
    ∀ (mu tick : Nat) (page : PageState) (att : Nat) (m : Bool),
    att ≤ maxAggressiveScrollAttemptsAtBottom → page.scrollTop ≤ B →
    (maxAggressiveScrollAttemptsAtBottom - att) + (B + 6 - page.scrollTop) ≤ mu →
    ∃ r, aggressiveLoop env (mu + 1) tick page att m = some r ∧
      (r.stabilized = true ∨ maxAggressiveScrollAttemptsAtBottom ≤ r.attempts) ∧
      r.trace.length ≤ mu := by
  intro mu
  induction mu with
  | zero =>
    intro tick page att m hatt hB hmu
    exfalso
    simp only [maxAggressiveScrollAttemptsAtBottom] at hatt hmu
    omega
  | succ n ih =>
    intro tick page att m hatt hB hmu
    by_cases hbudget : maxAggressiveScrollAttemptsAtBottom ≤ att
    · refine ⟨⟨page, tick, m, att, false, []⟩, ?_, Or.inr hbudget, by simp⟩
      rw [aggressiveLoop_succ, if_pos hbudget]
    · obtain ⟨hmono, hBnew⟩ := hM tick page hB
      by_cases hst : (env.onScroll tick page).scrollTop ≤ page.scrollTop + 5
      · by_cases hbot : (env.onScroll tick page).scrollHeight ≤
            (env.onScroll tick page).scrollTop +
              (env.onScroll tick page).clientHeight + 5
        · refine ⟨⟨env.onScroll tick page, tick + 1, m, att + 1, true,
            [.scrollCmd]⟩, ?_, Or.inl rfl, by simp⟩
          rw [aggressiveLoop_succ, if_neg hbudget]
          simp [hst, hbot]
        · obtain ⟨r, hr, hP, hlen⟩ := ih (tick + 1) (env.onScroll tick page)
            (att + 1) m
            (by simp only [maxAggressiveScrollAttemptsAtBottom] at hbudget ⊢; omega)
            hBnew
            (by simp only [maxAggressiveScrollAttemptsAtBottom] at hbudget hmu ⊢; omega)
          refine ⟨{r with trace := .scrollCmd :: r.trace}, ?_,
            by simpa using hP, by simpa using hlen⟩
          rw [aggressiveLoop_succ, if_neg hbudget]
          simp [hst, hbot, hr]
      · obtain ⟨r, hr, hP, hlen⟩ := ih (tick + 1) (env.onScroll tick page)
          0 true (by omega) hBnew
          (by simp only [maxAggressiveScrollAttemptsAtBottom] at hbudget hmu ⊢; omega)
        refine ⟨{r with trace := .scrollCmd :: r.trace}, ?_,
          by simpa using hP, by simpa using hlen⟩
        rw [aggressiveLoop_succ, if_neg hbudget]
        simp [hst, hr]

/-! ### Counter update facts -/

theorem bottomCheckUpdate_le (n : Nat) (f : Bool) (c : Nat) :
    bottomCheckUpdate n f c ≤ c + 1 := by
  unfold bottomCheckUpdate; split_ifs <;> omega

theorem postWaitUpdate_le (f : Bool) (n c : Nat) :
    postWaitUpdate f n c ≤ c + 1 := by
  unfold postWaitUpdate; split_ifs <;> omega

theorem ctrAllLe_ctr (b n : Nat) (h : n ≤ b) :
    ctrAllLe b [Ev.ctr n] = true := by
  simp [ctrAllLe, ctrLe, h]

theorem ctrAllLe_nil (b : Nat) : ctrAllLe b [] = true := rfl

theorem ctrAllLe_observe (b : Nat) (t : List Ev) :
    ctrAllLe b (Ev.observe :: t) = ctrAllLe b t := by
  simp [ctrAllLe, ctrLe]

theorem ctrAllLe_disconnect (b : Nat) (t : List Ev) :
    ctrAllLe b (Ev.disconnect :: t) = ctrAllLe b t := by
  simp [ctrAllLe, ctrLe]

theorem ctrAllLe_ctr_cons (b n : Nat) (t : List Ev) :
    ctrAllLe b (Ev.ctr n :: t) = (decide (n ≤ b) && ctrAllLe b t) := by
  simp [ctrAllLe, ctrLe]

theorem countOk_nil : countOk [] = 0 := rfl

theorem countOk_observe (t : List Ev) :
    countOk (Ev.observe :: t) = countOk t := by
  simp [countOk, List.countP_cons, isClickOk]

theorem countOk_disconnect (t : List Ev) :
    countOk (Ev.disconnect :: t) = countOk t := by
  simp [countOk, List.countP_cons, isClickOk]

theorem countOk_ctr (n : Nat) (t : List Ev) :
    countOk (Ev.ctr n :: t) = countOk t := by
  simp [countOk, List.countP_cons, isClickOk]

/-! ### Phase invariants -/

theorem bottomCheckPhase_counter (env : HostEnv) (st : St) :
    (bottomCheckPhase env st).scrollsWithoutNewHearts ≤
      st.scrollsWithoutNewHearts + 1 := by
  simpa [bottomCheckPhase] using
    bottomCheckUpdate_le _ st.processedHeartsInCycle st.scrollsWithoutNewHearts

theorem bottomCheckPhase_total (env : HostEnv) (st : St)
    (h : st.totalHeartsClicked = countOk st.trace) :
    (bottomCheckPhase env st).totalHeartsClicked =
      countOk (bottomCheckPhase env st).trace := by
  simp [bottomCheckPhase, countOk_append, scan_countOk, h]

theorem bottomCheckPhase_ctr (env : HostEnv) (b : Nat) (st : St)
    (h : ctrAllLe b st.trace = true) :
    ctrAllLe b (bottomCheckPhase env st).trace = true := by
  simp [bottomCheckPhase, ctrAllLe_append, h,
    ctrAllLe_scanEvs b _ (scan_scanEv env _ _ _)]

theorem bottomCheckPhase_obs (env : HostEnv) (st : St) (a : Bool) :
    obsScan a (bottomCheckPhase env st).trace = obsScan a st.trace := by
  have hs := obsScan_scanEvs _ (scan_scanEv env st.tick 0 st.page.hearts)
  simp only [bottomCheckPhase]
  rw [obsScan_append]
  cases obsScan a st.trace with
  | none => rfl
  | some a2 => simp [hs]

theorem waitPhase_counter (env : HostEnv) (st : St) :
    (waitPhase env st).scrollsWithoutNewHearts =
      st.scrollsWithoutNewHearts := by
  simp only [waitPhase]
  cases env.onWait st.tick st.page <;> simp

theorem waitPhase_total (env : HostEnv) (st : St)
    (h : st.totalHeartsClicked = countOk st.trace) :
    (waitPhase env st).totalHeartsClicked =
      countOk (waitPhase env st).trace := by
  simp only [waitPhase]
  cases hw : env.onWait st.tick st.page with
  | none =>
    simp [countOk_append, countOk_observe, countOk_disconnect, countOk_nil, h]
  | some page' =>
    simp [countOk_append, countOk_observe, countOk_disconnect, countOk_nil, h,
      scan_countOk]

theorem waitPhase_ctr (env : HostEnv) (b : Nat) (st : St)
    (h : ctrAllLe b st.trace = true) :
    ctrAllLe b (waitPhase env st).trace = true := by
  simp only [waitPhase]
  cases hw : env.onWait st.tick st.page with
  | none =>
    simp [ctrAllLe_append, h, ctrAllLe_observe, ctrAllLe_disconnect,
      ctrAllLe_nil]
  | some page' =>
    have hs := ctrAllLe_scanEvs b _ (scan_scanEv env (st.tick + 1) 0 page'.hearts)
    simp [ctrAllLe_append, h, hs, ctrAllLe_observe, ctrAllLe_disconnect,
      ctrAllLe_nil]

theorem waitPhase_obs (env : HostEnv) (st : St)
    (h : obsScan false st.trace = some false) :
    obsScan false (waitPhase env st).trace = some false := by
  simp only [waitPhase]
  cases hw : env.onWait st.tick st.page with
  | none => simp [obsScan_append, h, obsScan]
  | some page' =>
    have hs := obsScan_scanEvs _ (scan_scanEv env (st.tick + 1) 0 page'.hearts)
    simp [obsScan_append, h, obsScan, hs]

theorem postWaitPhase_counter (env : HostEnv) (st : St) :
    (postWaitPhase env st).scrollsWithoutNewHearts ≤
      st.scrollsWithoutNewHearts + 1 := by
  simp only [postWaitPhase]
  split
  · simpa using postWaitUpdate_le true 0 st.scrollsWithoutNewHearts
  · simpa using postWaitUpdate_le false
      (processVisibleHearts env st.tick 0 st.page.hearts).clicked
      st.scrollsWithoutNewHearts

theorem postWaitPhase_total (env : HostEnv) (st : St)
    (h : st.totalHeartsClicked = countOk st.trace) :
    (postWaitPhase env st).totalHeartsClicked =
      countOk (postWaitPhase env st).trace := by
  simp only [postWaitPhase]
  split
  · simp [countOk_append, countOk_ctr, countOk_nil, h]
  · simp [countOk_append, countOk_ctr, countOk_nil, h, scan_countOk]

theorem postWaitPhase_ctr (env : HostEnv) (b : Nat) (st : St)
    (h : ctrAllLe b st.trace = true)
    (hb : st.scrollsWithoutNewHearts + 1 ≤ b) :
    ctrAllLe b (postWaitPhase env st).trace = true := by
  simp only [postWaitPhase]
  split
  · have hv : postWaitUpdate true 0 st.scrollsWithoutNewHearts ≤ b :=
      le_trans (postWaitUpdate_le _ _ _) hb
    simp [ctrAllLe_append, h, ctrAllLe_ctr_cons, ctrAllLe_nil, hv]
  · have hv : postWaitUpdate false
        (processVisibleHearts env st.tick 0 st.page.hearts).clicked
        st.scrollsWithoutNewHearts ≤ b :=
      le_trans (postWaitUpdate_le _ _ _) hb
    have hs := ctrAllLe_scanEvs b _ (scan_scanEv env st.tick 0 st.page.hearts)
    simp [ctrAllLe_append, h, hs, ctrAllLe_ctr_cons, ctrAllLe_nil, hv]

theorem postWaitPhase_obs (env : HostEnv) (st : St)
    (h : obsScan false st.trace = some false) :
    obsScan false (postWaitPhase env st).trace = some false := by
  simp only [postWaitPhase]
  split
  · simp [obsScan_append, h, obsScan]
  · have hs := obsScan_scanEvs _ (scan_scanEv env st.tick 0 st.page.hearts)
    simp [obsScan_append, h, obsScan, hs]

/-- Invariants across the aggressive-scroll, wait, and post-wait phases of
one continuing iteration. -/
theorem contBranch_inv (env : HostEnv) (ar : AggResult) (st1 : St)
    (har : ∀ ev ∈ ar.trace, ev = Ev.scrollCmd)
    (hcnt : st1.scrollsWithoutNewHearts + 1 ≤ maxScrollsWithoutNewHearts) :
    ((postWaitPhase env (waitPhase env
        { st1 with
          page := ar.page
          tick := ar.tick
          trace := st1.trace ++ ar.trace })).scrollsWithoutNewHearts ≤
      maxScrollsWithoutNewHearts) ∧
    (ctrAllLe maxScrollsWithoutNewHearts st1.trace = true →
      ctrAllLe maxScrollsWithoutNewHearts (postWaitPhase env (waitPhase env
        { st1 with
          page := ar.page
          tick := ar.tick
          trace := st1.trace ++ ar.trace })).trace = true) ∧
    (st1.totalHeartsClicked = countOk st1.trace →
      (postWaitPhase env (waitPhase env
        { st1 with
          page := ar.page
          tick := ar.tick
          trace := st1.trace ++ ar.trace })).totalHeartsClicked =
        countOk (postWaitPhase env (waitPhase env
          { st1 with
          page := ar.page
          tick := ar.tick
          trace := st1.trace ++ ar.trace })).trace) ∧
    (obsScan false st1.trace = some false →
      obsScan false (postWaitPhase env (waitPhase env
        { st1 with
          page := ar.page
          tick := ar.tick
          trace := st1.trace ++ ar.trace })).trace = some false) := by
  obtain ⟨hc0, hc1, hc2⟩ :=
    scrollOnly_facts maxScrollsWithoutNewHearts ar.trace har
  refine ⟨?_, ?_, ?_, ?_⟩
  · have h1 := postWaitPhase_counter env (waitPhase env
      { st1 with
          page := ar.page
          tick := ar.tick
          trace := st1.trace ++ ar.trace })
    rw [waitPhase_counter] at h1
    exact le_trans h1 hcnt
  · intro hctr
    apply postWaitPhase_ctr
    · apply waitPhase_ctr
      simpa [ctrAllLe_append, hctr] using hc1
    · rw [waitPhase_counter]
      exact hcnt
  · intro htot
    apply postWaitPhase_total
    apply waitPhase_total
    simp [countOk_append, htot, hc0]
  · intro hobs
    apply postWaitPhase_obs
    apply waitPhase_obs
    simp [obsScan_append, hobs, hc2]

/-- Invariants across one full iteration of the main loop. -/
theorem loopBody_inv (env : HostEnv) (fuel : Nat) (st : St) (out : St ⊕ St)
    (hc : st.scrollsWithoutNewHearts < maxScrollsWithoutNewHearts)
    (h : loopBody env fuel st = some out) :
    ((outSt out).scrollsWithoutNewHearts ≤ maxScrollsWithoutNewHearts) ∧
    (ctrAllLe maxScrollsWithoutNewHearts st.trace = true →
      ctrAllLe maxScrollsWithoutNewHearts (outSt out).trace = true) ∧
    (st.totalHeartsClicked = countOk st.trace →
      (outSt out).totalHeartsClicked = countOk (outSt out).trace) ∧
    (obsScan false st.trace = some false →
      obsScan false (outSt out).trace = some false) := by
  simp only [loopBody] at h
  by_cases hcan : canStillScroll st.page = true
  · simp [hcan] at h
    cases hagg : aggressiveLoop env fuel st.tick st.page 0 false with
    | none =>
      rw [hagg] at h
      exact absurd h (by simp)
    | some ar =>
      rw [hagg] at h
      simp only [Option.some.injEq] at h
      subst h
      have hfacts := contBranch_inv env ar { st with iters := st.iters + 1 }
        (agg_trace_scroll env fuel st.tick st.page 0 false ar hagg)
        (by simpa using hc)
      simpa [outSt] using hfacts
  · have hcanf : canStillScroll st.page = false := by
      simpa using hcan
    simp [hcanf] at h
    by_cases hbrk : maxScrollsWithoutNewHearts ≤
        (bottomCheckPhase env
          { st with iters := st.iters + 1 }).scrollsWithoutNewHearts
    · rw [if_pos hbrk] at h
      simp only [Option.some.injEq] at h
      subst h
      refine ⟨?_, ?_, ?_, ?_⟩
      · have h1 := bottomCheckPhase_counter env
          { st with iters := st.iters + 1 }
        simp only [outSt]
        calc (bottomCheckPhase env { st with iters := st.iters + 1 }).scrollsWithoutNewHearts
            ≤ st.scrollsWithoutNewHearts + 1 := h1
          _ ≤ maxScrollsWithoutNewHearts := hc
      · intro hctr
        simp only [outSt]
        exact bottomCheckPhase_ctr env maxScrollsWithoutNewHearts
          { st with iters := st.iters + 1 } hctr
      · intro htot
        simp only [outSt]
        exact bottomCheckPhase_total env { st with iters := st.iters + 1 } htot
      · intro hobs
        simp only [outSt]
        rw [bottomCheckPhase_obs]
        exact hobs
    · rw [if_neg hbrk] at h
      cases hagg : aggressiveLoop env fuel
          (bottomCheckPhase env { st with iters := st.iters + 1 }).tick
          (bottomCheckPhase env { st with iters := st.iters + 1 }).page
          0 false with
      | none =>
        rw [hagg] at h
        exact absurd h (by simp)
      | some ar =>
        rw [hagg] at h
        simp only [Option.some.injEq] at h
        subst h
        have hcnt : (bottomCheckPhase env
            { st with iters := st.iters + 1 }).scrollsWithoutNewHearts + 1 ≤
            maxScrollsWithoutNewHearts := by omega
        have hfacts := contBranch_inv env ar
          (bottomCheckPhase env { st with iters := st.iters + 1 })
          (agg_trace_scroll env fuel _ _ 0 false ar hagg) hcnt
        obtain ⟨hf1, hf2, hf3, hf4⟩ := hfacts
        refine ⟨by simpa [outSt] using hf1, ?_, ?_, ?_⟩
        · intro hctr
          simp only [outSt]
          exact hf2 (bottomCheckPhase_ctr env maxScrollsWithoutNewHearts
            { st with iters := st.iters + 1 } hctr)
        · intro htot
          simp only [outSt]
          exact hf3 (bottomCheckPhase_total env
            { st with iters := st.iters + 1 } htot)
        · intro hobs
          simp only [outSt]
          apply hf4
          rw [bottomCheckPhase_obs]
          exact hobs

/-- Invariants across a terminating run of the main loop. -/
theorem mainLoop_inv (env : HostEnv) :
    ∀ (fuel : Nat) (st res : St),
    mainLoop env fuel st = some res →
    st.scrollsWithoutNewHearts ≤ maxScrollsWithoutNewHearts →
    (res.scrollsWithoutNewHearts ≤ maxScrollsWithoutNewHearts) ∧
    (ctrAllLe maxScrollsWithoutNewHearts st.trace = true →
      ctrAllLe maxScrollsWithoutNewHearts res.trace = true) ∧
    (st.totalHeartsClicked = countOk st.trace →
      res.totalHeartsClicked = countOk res.trace) ∧
    (obsScan false st.trace = some false →
      obsScan false res.trace = some false) := by
  intro fuel
  induction fuel with
  | zero => intro st res h; simp [mainLoop] at h
  | succ n ih =>
    intro st res h hc
    simp only [mainLoop] at h
    by_cases hstop : maxScrollsWithoutNewHearts ≤ st.scrollsWithoutNewHearts
    · rw [if_pos hstop] at h
      simp only [Option.some.injEq] at h
      subst h
      exact ⟨hc, fun x => x, fun x => x, fun x => x⟩
    · rw [if_neg hstop] at h
      have hlt : st.scrollsWithoutNewHearts < maxScrollsWithoutNewHearts := by
        omega
      cases hb : loopBody env n st with
      | none => rw [hb] at h; exact absurd h (by simp)
      | some out =>
        rw [hb] at h
        obtain ⟨f1, f2, f3, f4⟩ := loopBody_inv env n st out hlt hb
        cases out with
        | inl s =>
          simp only [Option.some.injEq] at h
          subst h
          exact ⟨by simpa [outSt] using f1, fun hctr => by
              simpa [outSt] using f2 hctr,
            fun htot => by simpa [outSt] using f3 htot,
            fun hobs => by simpa [outSt] using f4 hobs⟩
        | inr s =>
          simp only [] at h
          obtain ⟨g1, g2, g3, g4⟩ := ih s res h (by simpa [outSt] using f1)
          exact ⟨g1,
            fun hctr => g2 (by simpa [outSt] using f2 hctr),
            fun htot => g3 (by simpa [outSt] using f3 htot),
            fun hobs => g4 (by simpa [outSt] using f4 hobs)⟩

/-- Combined invariants of a terminating `clickAllHearts` run: the returned
string embeds the final total, the counter and all its logged values stay at
or below the threshold, the total equals the number of successful clicks in
the trace, and the observer discipline holds with no subscription left at
the end. -/
theorem run_inv (env : HostEnv) (fuel : Nat) (page : PageState)
    (s : String) (st : St)
    (h : clickAllHearts env fuel page = some (s, st)) :
    s = "Total hearts clicked: " ++ toString st.totalHeartsClicked ∧
    st.scrollsWithoutNewHearts ≤ maxScrollsWithoutNewHearts ∧
    ctrAllLe maxScrollsWithoutNewHearts st.trace = true ∧
    st.totalHeartsClicked = countOk st.trace ∧
    obsScan false st.trace = some false := by
  simp only [clickAllHearts] at h
  cases hm : mainLoop env fuel
      { page := { page with
          hearts := (processVisibleHearts env 0 0 page.hearts).hearts }
        tick := (processVisibleHearts env 0 0 page.hearts).tick
        scrollsWithoutNewHearts :=
          if 0 < (processVisibleHearts env 0 0 page.hearts).clicked then 0
          else 0
        totalHeartsClicked := (processVisibleHearts env 0 0 page.hearts).clicked
        processedHeartsInCycle := false
        iters := 0
        trace := (processVisibleHearts env 0 0 page.hearts).trace } with
  | none => rw [hm] at h; exact absurd h (by simp)
  | some stl =>
    rw [hm] at h
    simp only [Option.some.injEq, Prod.mk.injEq] at h
    obtain ⟨hs, hst⟩ := h
    have hscan := scan_scanEv env 0 0 page.hearts
    obtain ⟨g1, g2, g3, g4⟩ := mainLoop_inv env fuel _ stl hm (by simp)
    have hctr := g2 (ctrAllLe_scanEvs _ _ hscan)
    have htot := g3 (by
      simpa using (scan_countOk env 0 0 page.hearts).symm)
    have hobs := g4 (obsScan_scanEvs _ hscan false)
    subst hst
    refine ⟨by simpa using hs.symm, by simpa using g1, ?_, ?_, ?_⟩
    · simp [ctrAllLe_append, hctr, ctrAllLe_disconnect, ctrAllLe_nil]
    · simp [countOk_append, countOk_disconnect, countOk_nil, htot]
    · simp [obsScan_append, hobs, obsScan]

/-! ### Runs against a host that never grows -/

/-- When scroll commands do not move the page and the page still reports
scrollable room, the aggressive loop spends its three attempts and stops,
leaving everything unchanged. -/
theorem agg_stall (env : HostEnv) (hS : ∀ t p, env.onScroll t p = p)
    (page : PageState) (hcan : canStillScroll page = true) :
    ∀ (n tick : Nat) (m : Bool),
    aggressiveLoop env (n + 4) tick page 0 m =
      some ⟨page, tick + 3, m, 3, false,
        [Ev.scrollCmd, Ev.scrollCmd, Ev.scrollCmd]⟩ := by
  have hcond : ¬ (page.scrollHeight ≤
      page.scrollTop + page.clientHeight + 5) := by
    simp [canStillScroll] at hcan
    omega
  have hstall : page.scrollTop ≤ page.scrollTop + 5 := by omega
  have h3 : ∀ (k tick : Nat) (m : Bool),
      aggressiveLoop env (k + 1) tick page 3 m =
        some ⟨page, tick, m, 3, false, []⟩ := by
    intro k tick m
    rw [aggressiveLoop_succ]
    rw [if_pos (by decide : maxAggressiveScrollAttemptsAtBottom ≤ 3)]
  have h2 : ∀ (k tick : Nat) (m : Bool),
      aggressiveLoop env (k + 2) tick page 2 m =
        some ⟨page, tick + 1, m, 3, false, [Ev.scrollCmd]⟩ := by
    intro k tick m
    rw [aggressiveLoop_succ]
    rw [if_neg (by decide : ¬ (maxAggressiveScrollAttemptsAtBottom ≤ 2))]
    simp [hS, hstall, hcond, h3]
  have h1 : ∀ (k tick : Nat) (m : Bool),
      aggressiveLoop env (k + 3) tick page 1 m =
        some ⟨page, tick + 2, m, 3, false, [Ev.scrollCmd, Ev.scrollCmd]⟩ := by
    intro k tick m
    rw [aggressiveLoop_succ]
    rw [if_neg (by decide : ¬ (maxAggressiveScrollAttemptsAtBottom ≤ 1))]
    simp [hS, hstall, hcond, h2]
  intro n tick m
  rw [aggressiveLoop_succ]
  rw [if_neg (by decide : ¬ (maxAggressiveScrollAttemptsAtBottom ≤ 0))]
  simp [hS, hstall, hcond, h1]

/-- One main-loop iteration against a host that never grows, from a state
whose hearts are all filled and whose page still reports scrollable room:
the counter advances by exactly one and nothing else of substance changes. -/
theorem c1_body (env : HostEnv) (hS : ∀ t p, env.onScroll t p = p)
    (hW : ∀ t p, env.onWait t p = none) (st : St)
    (hF : ∀ e ∈ st.page.hearts, e.filled = true)
    (hcan : canStillScroll st.page = true)
    (hflag : st.processedHeartsInCycle = false) :
    ∀ n, loopBody env (n + 4) st =
      some (.inr { st with
        tick := st.tick + 4
        scrollsWithoutNewHearts := st.scrollsWithoutNewHearts + 1
        iters := st.iters + 1
        trace := st.trace ++ [Ev.scrollCmd, Ev.scrollCmd, Ev.scrollCmd,
          Ev.observe, Ev.disconnect,
          Ev.ctr (st.scrollsWithoutNewHearts + 1)] }) := by
  intro n
  have hagg := agg_stall env hS st.page hcan n st.tick false
  have hscan := scan_filled env (st.tick + 4) 0 st.page.hearts hF
  simp only [loopBody]
  simp [hcan, hagg, waitPhase, postWaitPhase, hW, hscan, hflag,
    postWaitUpdate]

/-- One-step unfolding of the main loop. -/
theorem mainLoop_succ (env : HostEnv) (fuel : Nat) (st : St) :
    mainLoop env (fuel + 1) st =
      if maxScrollsWithoutNewHearts ≤ st.scrollsWithoutNewHearts then some st
      else
        match loopBody env fuel st with
        | none => none
        | some (.inl s) => some s
        | some (.inr s) => mainLoop env fuel s := rfl

/-- Against a host that never grows, starting from an all-filled page with
scrollable room, the main loop spends exactly one unproductive iteration
per missing counter step and stops at the threshold. -/
theorem c1_chain (env : HostEnv) (hS : ∀ t p, env.onScroll t p = p)
    (hW : ∀ t p, env.onWait t p = none) :
    ∀ (d k : Nat) (st : St),
    (∀ e ∈ st.page.hearts, e.filled = true) →
    canStillScroll st.page = true →
    st.processedHeartsInCycle = false →
    st.scrollsWithoutNewHearts + d = maxScrollsWithoutNewHearts →
    ∃ res, mainLoop env (k + d + 4) st = some res ∧
      res.iters = st.iters + d ∧
      res.scrollsWithoutNewHearts = maxScrollsWithoutNewHearts ∧
      res.totalHeartsClicked = st.totalHeartsClicked := by
  intro d
  induction d with
  | zero =>
    intro k st hF hcan hflag hcnt
    refine ⟨st, ?_, by omega, by omega, rfl⟩
    rw [mainLoop_succ, if_pos (by simp only [maxScrollsWithoutNewHearts] at hcnt ⊢; omega)]
  | succ d' ihd =>
    intro k st hF hcan hflag hcnt
    have hbody := c1_body env hS hW st hF hcan hflag (k + d')
    obtain ⟨res, hres, hi, hc4, ht⟩ := ihd k
      { st with
        tick := st.tick + 4
        scrollsWithoutNewHearts := st.scrollsWithoutNewHearts + 1
        iters := st.iters + 1
        trace := st.trace ++ [Ev.scrollCmd, Ev.scrollCmd, Ev.scrollCmd,
          Ev.observe, Ev.disconnect,
          Ev.ctr (st.scrollsWithoutNewHearts + 1)] }
      (by simpa using hF) (by simpa using hcan) (by simpa using hflag)
      (by simp only [maxScrollsWithoutNewHearts] at hcnt ⊢; omega)
    refine ⟨res, ?_, ?_, hc4, ?_⟩
    · rw [show k + (d' + 1) + 4 = (k + d' + 4) + 1 from by omega]
      rw [mainLoop_succ, if_neg (by
        simp only [maxScrollsWithoutNewHearts] at hcnt ⊢; omega)]
      rw [hbody]
      simpa using hres
    · simp at hi
      omega
    · simpa using ht

/-! ### The two-page scenario -/

theorem actionableIdxs_append (xs ys : List Elem) :
    ∀ i, actionableIdxs i (xs ++ ys) =
      actionableIdxs i xs ++ actionableIdxs (i + xs.length) ys := by
  induction xs with
  | nil => intro i; simp [actionableIdxs]
  | cons e t ih =>
    intro i
    have harith : i + 1 + t.length = i + (t.length + 1) := by omega
    by_cases h : actionable e = true <;>
      simp [actionableIdxs, h, ih, harith]

theorem actionableIdxs_replicate_of_neg (x : Elem) (hx : actionable x = false) :
    ∀ (n i : Nat), actionableIdxs i (List.replicate n x) = [] := by
  intro n
  induction n with
  | zero => intro i; rfl
  | succ m ih => intro i; simp [List.replicate_succ, actionableIdxs, hx, ih]

theorem actionableIdxs_len_replicate (x : Elem) (hx : actionable x = true) :
    ∀ (n i : Nat), (actionableIdxs i (List.replicate n x)).length = n := by
  intro n
  induction n with
  | zero => intro i; rfl
  | succ m ih => intro i; simp [List.replicate_succ, actionableIdxs, hx, ih]

theorem applyClicks_append (f : Elem → Elem) (xs ys : List Elem) :
    applyClicks f (xs ++ ys) = applyClicks f xs ++ applyClicks f ys := by
  simp [applyClicks]

theorem applyClicks_replicate (f : Elem → Elem) (n : Nat) (x : Elem) :
    applyClicks f (List.replicate n x) =
      List.replicate n (if actionable x then f x else x) := by
  simp [applyClicks, List.map_replicate]

/-- A scan over a fresh page of `a` visible unfilled hearts, against a host
that fills on click, clicks all of them. -/
theorem scan_fill_replicate (env : HostEnv)
    (h : ∀ t e, env.onClick t e = Except.ok { e with filled := true })
    (a tick i : Nat) :
    processVisibleHearts env tick i (List.replicate a ⟨true, false⟩) =
      ⟨a, List.replicate a ⟨true, true⟩, tick + a,
        okTrace (actionableIdxs i (List.replicate a ⟨true, false⟩))⟩ := by
  rw [scan_ok env _ h]
  simp [actionableIdxs_len_replicate ⟨true, false⟩ (by decide),
    applyClicks_replicate, actionable]

/-- A scan over `a` filled hearts followed by `b` fresh ones clicks exactly
the `b` fresh ones. -/
theorem scan_fill_two (env : HostEnv)
    (h : ∀ t e, env.onClick t e = Except.ok { e with filled := true })
    (a b tick i : Nat) :
    processVisibleHearts env tick i
        (List.replicate a ⟨true, true⟩ ++ List.replicate b ⟨true, false⟩) =
      ⟨b, List.replicate a ⟨true, true⟩ ++ List.replicate b ⟨true, true⟩,
        tick + b,
        okTrace (actionableIdxs i
          (List.replicate a ⟨true, true⟩ ++
            List.replicate b ⟨true, false⟩))⟩ := by
  rw [scan_ok env _ h]
  have hhearts : applyClicks (fun e => { e with filled := true })
      (List.replicate a ⟨true, true⟩ ++ List.replicate b ⟨true, false⟩) =
      List.replicate a ⟨true, true⟩ ++ List.replicate b ⟨true, true⟩ := by
    simp [applyClicks_append, applyClicks_replicate, actionable]
  have hlen : (actionableIdxs i (List.replicate a ⟨true, true⟩ ++
      List.replicate b ⟨true, false⟩)).length = b := by
    simp [actionableIdxs_append,
      actionableIdxs_replicate_of_neg ⟨true, true⟩ (by decide),
      actionableIdxs_len_replicate ⟨true, false⟩ (by decide)]
  rw [hhearts, hlen]

/-- Aggressive scroll on the two-page host from the top of the 200-pixel
page one: one productive command to the bottom, one stalled command, then
the at-bottom break. -/
theorem agg_two_1 (a b : Nat) (hs : List Elem) (tick n : Nat) :
    aggressiveLoop (envTwoPage a b) (n + 2) tick ⟨hs, 0, 200, 100⟩ 0 false =
      some ⟨⟨hs, 100, 200, 100⟩, tick + 2, true, 1, true,
        [Ev.scrollCmd, Ev.scrollCmd]⟩ := by
  have h2 : aggressiveLoop (envTwoPage a b) (n + 1) (tick + 1)
      ⟨hs, 100, 200, 100⟩ 0 true =
      some ⟨⟨hs, 100, 200, 100⟩, tick + 1 + 1, true, 1, true,
        [Ev.scrollCmd]⟩ := by
    rw [aggressiveLoop_succ]
    rw [if_neg (by decide : ¬ (maxAggressiveScrollAttemptsAtBottom ≤ 0))]
    simp [envTwoPage]
  rw [aggressiveLoop_succ]
  rw [if_neg (by decide : ¬ (maxAggressiveScrollAttemptsAtBottom ≤ 0))]
  simp only [envTwoPage] at h2 ⊢
  simp [h2]

/-- Aggressive scroll on the two-page host from position 100 of the grown
400-pixel page: one productive command to 300, one stalled command, then
the at-bottom break. -/
theorem agg_two_2 (a b : Nat) (hs : List Elem) (tick n : Nat) :
    aggressiveLoop (envTwoPage a b) (n + 2) tick ⟨hs, 100, 400, 100⟩ 0 false =
      some ⟨⟨hs, 300, 400, 100⟩, tick + 2, true, 1, true,
        [Ev.scrollCmd, Ev.scrollCmd]⟩ := by
  have h2 : aggressiveLoop (envTwoPage a b) (n + 1) (tick + 1)
      ⟨hs, 300, 400, 100⟩ 0 true =
      some ⟨⟨hs, 300, 400, 100⟩, tick + 1 + 1, true, 1, true,
        [Ev.scrollCmd]⟩ := by
    rw [aggressiveLoop_succ]
    rw [if_neg (by decide : ¬ (maxAggressiveScrollAttemptsAtBottom ≤ 0))]
    simp [envTwoPage]
  rw [aggressiveLoop_succ]
  rw [if_neg (by decide : ¬ (maxAggressiveScrollAttemptsAtBottom ≤ 0))]
  simp only [envTwoPage] at h2 ⊢
  simp [h2]

/-- Aggressive scroll on the two-page host already at the bottom of the
grown page: a single stalled command and the at-bottom break. -/
theorem agg_two_3 (a b : Nat) (hs : List Elem) (tick n : Nat) :
    aggressiveLoop (envTwoPage a b) (n + 1) tick ⟨hs, 300, 400, 100⟩ 0 false =
      some ⟨⟨hs, 300, 400, 100⟩, tick + 1, false, 1, true,
        [Ev.scrollCmd]⟩ := by
  rw [aggressiveLoop_succ]
  rw [if_neg (by decide : ¬ (maxAggressiveScrollAttemptsAtBottom ≤ 0))]
  simp [envTwoPage]

theorem envTwoPage_onWait_hit (a b t top H C : Nat) :
    (envTwoPage a b).onWait t ⟨List.replicate a ⟨true, true⟩, top, H, C⟩ =
      some ⟨List.replicate a ⟨true, true⟩ ++ List.replicate b ⟨true, false⟩,
        top, H + 200, C⟩ := by
  simp [envTwoPage]

theorem envTwoPage_onWait_miss (a b : Nat) (hb : 1 ≤ b) (t top H C : Nat) :
    (envTwoPage a b).onWait t
      ⟨List.replicate (a + b) ⟨true, true⟩, top, H, C⟩ = none := by
  simp [envTwoPage]
  omega

theorem filled_replicate (n : Nat) :
    ∀ e ∈ List.replicate n (⟨true, true⟩ : Elem), e.filled = true := by
  intro e he
  simp [List.eq_of_mem_replicate he]

/-- Two-page run, first loop iteration: scroll reveals nothing yet, the
wait-phase mutation reveals page two and the observer scan clicks its `b`
hearts, so the counter resets. -/
theorem twoPage_iter1 (a b : Nat) (hb : 1 ≤ b) (tick total iters n : Nat)
    (tr : List Ev) :
    loopBody (envTwoPage a b) (n + 2)
        ⟨⟨List.replicate a ⟨true, true⟩, 0, 200, 100⟩, tick, 0, total, false,
          iters, tr⟩ =
      some (.inr ⟨⟨List.replicate (a + b) ⟨true, true⟩, 100, 400, 100⟩,
        tick + 3 + b, 0, total + b, true, iters + 1,
        tr ++ [Ev.scrollCmd, Ev.scrollCmd, Ev.observe] ++
          okTrace (actionableIdxs 0 (List.replicate a ⟨true, true⟩ ++
            List.replicate b ⟨true, false⟩)) ++
          [Ev.disconnect, Ev.ctr 0]⟩) := by
  have hagg := agg_two_1 a b (List.replicate a ⟨true, true⟩) tick n
  have hscan := scan_fill_two (envTwoPage a b) (fun _ _ => rfl) a b (tick + 3) 0
  have hflagv : decide (0 < b) = true := decide_eq_true (by omega)
  simp only [loopBody]
  simp only [canStillScroll]
  norm_num
  rw [hagg]
  simp only [waitPhase, postWaitPhase]
  simp [envTwoPage_onWait_hit, hscan, hflagv, postWaitUpdate]

/-- Two-page run, second iteration: the page has grown, scrolling reaches
the new bottom, the wait times out, the re-check finds nothing, and the
counter moves to one. -/
theorem twoPage_iter2 (a b : Nat) (hb : 1 ≤ b) (tick total iters n : Nat)
    (tr : List Ev) :
    loopBody (envTwoPage a b) (n + 2)
        ⟨⟨List.replicate (a + b) ⟨true, true⟩, 100, 400, 100⟩, tick, 0, total,
          true, iters, tr⟩ =
      some (.inr ⟨⟨List.replicate (a + b) ⟨true, true⟩, 300, 400, 100⟩,
        tick + 3, 1, total, false, iters + 1,
        tr ++ [Ev.scrollCmd, Ev.scrollCmd, Ev.observe, Ev.disconnect,
          Ev.ctr 1]⟩) := by
  have hagg := agg_two_2 a b (List.replicate (a + b) ⟨true, true⟩) tick n
  have hscan := scan_filled (envTwoPage a b) (tick + 3) 0 _
    (filled_replicate (a + b))
  simp only [loopBody]
  simp only [canStillScroll]
  norm_num
  rw [hagg]
  simp only [waitPhase, postWaitPhase]
  simp [envTwoPage_onWait_miss a b hb, hscan, postWaitUpdate]

/-- Two-page run, third iteration: the page is exhausted and at the bottom;
the bottom check and the post-wait re-check each find nothing, so the
counter moves from one to three. -/
theorem twoPage_iter3 (a b : Nat) (hb : 1 ≤ b) (tick total iters n : Nat)
    (tr : List Ev) :
    loopBody (envTwoPage a b) (n + 1)
        ⟨⟨List.replicate (a + b) ⟨true, true⟩, 300, 400, 100⟩, tick, 1, total,
          false, iters, tr⟩ =
      some (.inr ⟨⟨List.replicate (a + b) ⟨true, true⟩, 300, 400, 100⟩,
        tick + 2, 3, total, false, iters + 1,
        tr ++ [Ev.scrollCmd, Ev.observe, Ev.disconnect, Ev.ctr 3]⟩) := by
  have hagg := agg_two_3 a b (List.replicate (a + b) ⟨true, true⟩) tick n
  have hscan1 := scan_filled (envTwoPage a b) tick 0 _
    (filled_replicate (a + b))
  have hscan2 := scan_filled (envTwoPage a b) (tick + 2) 0 _
    (filled_replicate (a + b))
  simp only [loopBody, bottomCheckPhase]
  simp only [canStillScroll]
  norm_num
  rw [hscan1]
  simp only [bottomCheckUpdate]
  norm_num
  rw [hagg]
  simp only [waitPhase, postWaitPhase]
  simp [envTwoPage_onWait_miss a b hb, hscan2, postWaitUpdate]
  decide

/-- Two-page run, fourth iteration: the bottom check finds nothing, the
counter reaches the threshold, and the loop breaks. -/
theorem twoPage_iter4 (a b : Nat) (tick total iters n : Nat) (tr : List Ev) :
    loopBody (envTwoPage a b) n
        ⟨⟨List.replicate (a + b) ⟨true, true⟩, 300, 400, 100⟩, tick, 3, total,
          false, iters, tr⟩ =
      some (.inl ⟨⟨List.replicate (a + b) ⟨true, true⟩, 300, 400, 100⟩,
        tick, 4, total, false, iters + 1, tr⟩) := by
  have hscan := scan_filled (envTwoPage a b) tick 0 _
    (filled_replicate (a + b))
  simp only [loopBody, bottomCheckPhase]
  simp only [canStillScroll]
  norm_num
  rw [hscan]
  simp [bottomCheckUpdate, maxScrollsWithoutNewHearts]

/-- A full run over the two-page scenario: all `a + b` hearts are clicked
and the run ends with the no-progress counter at the threshold (the loop
can only exit once the counter reaches it). -/
theorem twoPage_run (a b k : Nat) (hb : 1 ≤ b) :
    (clickAllHearts (envTwoPage a b) (k + 7) (twoPageStart a)).map
        (fun p => (p.2.totalHeartsClicked, p.2.scrollsWithoutNewHearts)) =
      some (a + b, maxScrollsWithoutNewHearts) := by
  have hscan0 := scan_fill_replicate (envTwoPage a b) (fun _ _ => rfl) a 0 0
  have hm : mainLoop (envTwoPage a b) (k + 7)
      ⟨⟨List.replicate a ⟨true, true⟩, 0, 200, 100⟩, a, 0, a, false, 0,
        okTrace (actionableIdxs 0 (List.replicate a ⟨true, false⟩))⟩ =
      some ⟨⟨List.replicate (a + b) ⟨true, true⟩, 300, 400, 100⟩,
        a + 3 + b + 3 + 2, 4, a + b, false, 4,
        okTrace (actionableIdxs 0 (List.replicate a ⟨true, false⟩)) ++ [Ev.scrollCmd, Ev.scrollCmd, Ev.observe] ++
          okTrace (actionableIdxs 0 (List.replicate a (⟨true, true⟩ : Elem) ++
            List.replicate b (⟨true, false⟩ : Elem))) ++
          [Ev.disconnect, Ev.ctr 0] ++ [Ev.scrollCmd, Ev.scrollCmd, Ev.observe, Ev.disconnect,
          Ev.ctr 1] ++ [Ev.scrollCmd, Ev.observe, Ev.disconnect, Ev.ctr 3]⟩ := by
    rw [show (k + 7 : Nat) = (k + 6) + 1 from rfl, mainLoop_succ,
      if_neg (by decide : ¬ (maxScrollsWithoutNewHearts ≤ 0)),
      show (k + 6 : Nat) = (k + 4) + 2 from rfl,
      twoPage_iter1 a b hb a a 0 (k + 4)
        (okTrace (actionableIdxs 0 (List.replicate a ⟨true, false⟩)))]
    simp only []
    rw [show ((k + 4) + 2 : Nat) = (k + 5) + 1 from rfl, mainLoop_succ,
      if_neg (by decide : ¬ (maxScrollsWithoutNewHearts ≤ 0)),
      show (k + 5 : Nat) = (k + 3) + 2 from rfl,
      twoPage_iter2 a b hb (a + 3 + b) (a + b) (0 + 1) (k + 3)
        (okTrace (actionableIdxs 0 (List.replicate a ⟨true, false⟩)) ++ [Ev.scrollCmd, Ev.scrollCmd, Ev.observe] ++
          okTrace (actionableIdxs 0 (List.replicate a (⟨true, true⟩ : Elem) ++
            List.replicate b (⟨true, false⟩ : Elem))) ++
          [Ev.disconnect, Ev.ctr 0])]
    simp only []
    rw [show ((k + 3) + 2 : Nat) = (k + 4) + 1 from rfl, mainLoop_succ,
      if_neg (by decide : ¬ (maxScrollsWithoutNewHearts ≤ 1)),
      show (k + 4 : Nat) = (k + 3) + 1 from rfl,
      twoPage_iter3 a b hb (a + 3 + b + 3) (a + b) (0 + 1 + 1) (k + 3)
        (okTrace (actionableIdxs 0 (List.replicate a ⟨true, false⟩)) ++ [Ev.scrollCmd, Ev.scrollCmd, Ev.observe] ++
          okTrace (actionableIdxs 0 (List.replicate a (⟨true, true⟩ : Elem) ++
            List.replicate b (⟨true, false⟩ : Elem))) ++
          [Ev.disconnect, Ev.ctr 0] ++ [Ev.scrollCmd, Ev.scrollCmd, Ev.observe, Ev.disconnect,
          Ev.ctr 1])]
    simp only []
    rw [mainLoop_succ,
      if_neg (by decide : ¬ (maxScrollsWithoutNewHearts ≤ 3)),
      twoPage_iter4 a b (a + 3 + b + 3 + 2) (a + b) (0 + 1 + 1 + 1) (k + 3)
        (okTrace (actionableIdxs 0 (List.replicate a ⟨true, false⟩)) ++ [Ev.scrollCmd, Ev.scrollCmd, Ev.observe] ++
          okTrace (actionableIdxs 0 (List.replicate a (⟨true, true⟩ : Elem) ++
            List.replicate b (⟨true, false⟩ : Elem))) ++
          [Ev.disconnect, Ev.ctr 0] ++ [Ev.scrollCmd, Ev.scrollCmd, Ev.observe, Ev.disconnect,
          Ev.ctr 1] ++ [Ev.scrollCmd, Ev.observe, Ev.disconnect, Ev.ctr 3])]
  simp only [clickAllHearts, twoPageStart, hscan0, Nat.zero_add, ite_self]
  rw [hm]
  simp [maxScrollsWithoutNewHearts]

/-- A full run against a host that never grows, on a page with no unfilled
hearts that still reports scrollable room: exactly four unproductive
iterations, final counter at the threshold, nothing clicked. -/
theorem neverGrow_run (env : HostEnv) (page : PageState) (k : Nat)
    (hS : ∀ t p, env.onScroll t p = p)
    (hW : ∀ t p, env.onWait t p = none)
    (hF : ∀ e ∈ page.hearts, e.filled = true)
    (hcan : canStillScroll page = true) :
    (clickAllHearts env (k + 8) page).map
        (fun p => (p.2.iters, p.2.scrollsWithoutNewHearts,
          p.2.totalHeartsClicked)) =
      some (maxScrollsWithoutNewHearts, maxScrollsWithoutNewHearts, 0) := by
  have hscan0 := scan_filled env 0 0 page.hearts hF
  obtain ⟨res, hres, hi, hc4, ht⟩ := c1_chain env hS hW 4 k
    ⟨page, 0, 0, 0, false, 0, []⟩ hF hcan rfl rfl
  have hfe : k + 4 + 4 = k + 8 := by omega
  rw [hfe] at hres
  simp only [clickAllHearts, hscan0, ite_self]
  rw [hres]
  simp at hi
  simp [hi, hc4, ht, maxScrollsWithoutNewHearts]

theorem applyClicks_id (hs : List Elem) : applyClicks id hs = hs := by
  simp [applyClicks]

/-! ### Claims -/

/-- Claim C1, counterexample.  Against a host that never grows (scroll
commands do not move the page, no mutation ever fires) and a page on which
every scan finds zero unfilled hearts, the main while loop does not always
terminate after exactly `maxScrollsWithoutNewHearts` iterations: started at
the bottom (`pageBottom`), the run terminates after two iterations, because
an at-bottom iteration increments the no-progress counter twice (once in
the bottom check and once in the post-wait re-check). -/
theorem C1_counterexample :
    (clickAllHearts envNever 20 pageBottom).map (fun p => p.2.iters) =
      some 2 ∧
    ¬ ((clickAllHearts envNever 20 pageBottom).map (fun p => p.2.iters) =
      some maxScrollsWithoutNewHearts) := by
  decide

/-- Claim C1, amended.  Against a host that never grows, on a page where
every scan finds zero unfilled hearts and which still reports scrollable
room (`canStillScroll`), the main while loop terminates after exactly
`maxScrollsWithoutNewHearts` unproductive iterations, with the counter at
the threshold and nothing clicked. -/
theorem C1_theorem (env : HostEnv) (page : PageState) (k : Nat)
    (hS : ∀ t p, env.onScroll t p = p)
    (hW : ∀ t p, env.onWait t p = none)
    (hF : ∀ e ∈ page.hearts, e.filled = true)
    (hcan : canStillScroll page = true) :
    (clickAllHearts env (k + 8) page).map
        (fun p => (p.2.iters, p.2.scrollsWithoutNewHearts,
          p.2.totalHeartsClicked)) =
      some (maxScrollsWithoutNewHearts, maxScrollsWithoutNewHearts, 0) :=
  neverGrow_run env page k hS hW hF hcan

/-- Claim C1, witness: the amended claim at the concrete never-growing host
`envNever` and the concrete page `pageOpen`. -/
theorem C1_witness :
    (clickAllHearts envNever 8 pageOpen).map
        (fun p => (p.2.iters, p.2.scrollsWithoutNewHearts,
          p.2.totalHeartsClicked)) =
      some (maxScrollsWithoutNewHearts, maxScrollsWithoutNewHearts, 0) :=
  C1_theorem envNever pageOpen 0 (fun _ _ => rfl) (fun _ _ => rfl)
    (by intro e he; simp [pageOpen] at he) (by decide)

/-- Claim C2.  In every terminating run the no-progress counter never
exceeds the threshold - neither in the final state nor at any of the
per-iteration counter logs (`Ev.ctr`) - and the counter-update functions
used by the loop reset the counter to zero whenever the corresponding pass
acted on at least one heart (bottom-check scan, observer-driven pass via
the processed-in-cycle flag, and post-wait scan). -/
theorem C2_theorem (env : HostEnv) (fuel : Nat) (page : PageState)
    (n c : Nat) (f : Bool) :
    (clickAllHearts env fuel page).map (fun p => counterOk p.2) =
      (clickAllHearts env fuel page).map (fun _ => true) ∧
    bottomCheckUpdate (n + 1) f c = 0 ∧
    postWaitUpdate f (n + 1) c = 0 ∧
    postWaitUpdate true n c = 0 := by
  refine ⟨?_, by simp [bottomCheckUpdate],
    by cases f <;> simp [postWaitUpdate], by simp [postWaitUpdate]⟩
  cases hrun : clickAllHearts env fuel page with
  | none => simp
  | some pr =>
    obtain ⟨s, st⟩ := pr
    obtain ⟨g1, g2, g3, g4, g5⟩ := run_inv env fuel page s st hrun
    simp [counterOk, Bool.and_eq_true, decide_eq_true_eq, g2, g3]

/-- Claim C3.  Every terminating run returns, as its summary value, the
string embedding `totalHeartsClicked`, and that total equals the number of
successful (non-throwing) click invocations performed over the whole run. -/
theorem C3_theorem (env : HostEnv) (fuel : Nat) (page : PageState) :
    (clickAllHearts env fuel page).map Prod.fst =
      (clickAllHearts env fuel page).map
        (fun p => "Total hearts clicked: " ++
          toString p.2.totalHeartsClicked) ∧
    (clickAllHearts env fuel page).map (fun p => p.2.totalHeartsClicked) =
      (clickAllHearts env fuel page).map (fun p => countOk p.2.trace) := by
  cases hrun : clickAllHearts env fuel page with
  | none => simp
  | some pr =>
    obtain ⟨s, st⟩ := pr
    obtain ⟨g1, g2, g3, g4, g5⟩ := run_inv env fuel page s st hrun
    simp [g1, g4]

/-- Claim C4, counterexample.  In the concrete two-page scenario with two
hearts on page one and one on page two, the run clicks all three hearts but
terminates with the no-progress counter EQUAL to the threshold, not
strictly below it: the loop can only exit once the counter reaches
`maxScrollsWithoutNewHearts`. -/
theorem C4_counterexample :
    (clickAllHearts (envTwoPage 2 1) 20 (twoPageStart 2)).map
        (fun p => (p.2.totalHeartsClicked, p.2.scrollsWithoutNewHearts)) =
      some (3, maxScrollsWithoutNewHearts) ∧
    ¬ ((clickAllHearts (envTwoPage 2 1) 20 (twoPageStart 2)).map
        (fun p => decide (p.2.scrollsWithoutNewHearts <
          maxScrollsWithoutNewHearts)) = some true) := by
  decide

/-- Claim C4, amended.  For every two-page scenario with `a` hearts on page
one and `b` (at least one) on page two, revealed by one growth-plus-wait
cycle, a full run clicks all `a + b` hearts and terminates with the
no-progress counter equal to the threshold
`maxScrollsWithoutNewHearts`. -/
theorem C4_theorem (a b k : Nat) (hb : 1 ≤ b) :
    (clickAllHearts (envTwoPage a b) (k + 7) (twoPageStart a)).map
        (fun p => (p.2.totalHeartsClicked, p.2.scrollsWithoutNewHearts)) =
      some (a + b, maxScrollsWithoutNewHearts) :=
  twoPage_run a b k hb

/-- Claim C4, witness: the amended claim at the concrete scenario with one
heart on each page. -/
theorem C4_witness :
    (clickAllHearts (envTwoPage 1 1) 7 (twoPageStart 1)).map
        (fun p => (p.2.totalHeartsClicked, p.2.scrollsWithoutNewHearts)) =
      some (2, maxScrollsWithoutNewHearts) :=
  C4_theorem 1 1 0 (Nat.le_refl 1)

/-- Claim C5.  Per-item click failures never propagate: the embedding of
`processVisibleHearts` is a total function whose try/catch appears as the
`Except`-valued click primitive, and against an always-throwing click
primitive a pass acts on nothing - zero count, no DOM change, no
successful click in its trace. -/
theorem C5_theorem (env : HostEnv) (tick i : Nat) (hs : List Elem)
    (h : ∀ t e, env.onClick t e = Except.error ()) :
    (processVisibleHearts env tick i hs).clicked = 0 ∧
    (processVisibleHearts env tick i hs).hearts = hs ∧
    countOk (processVisibleHearts env tick i hs).trace = 0 :=
  scan_err env h tick i hs

/-- Claim C5, witness: the always-throwing host on a two-element DOM. -/
theorem C5_witness :
    (processVisibleHearts envThrow 0 0
      [⟨true, false⟩, ⟨false, false⟩]).clicked = 0 ∧
    (processVisibleHearts envThrow 0 0
      [⟨true, false⟩, ⟨false, false⟩]).hearts =
      [⟨true, false⟩, ⟨false, false⟩] ∧
    countOk (processVisibleHearts envThrow 0 0
      [⟨true, false⟩, ⟨false, false⟩]).trace = 0 :=
  C5_theorem envThrow 0 0 [⟨true, false⟩, ⟨false, false⟩] (fun _ _ => rfl)

/-- Claim C6.  On a DOM with no element matching the unfilled-heart
selector, a scan pass returns zero and has no side effects at all (same
hearts, same tick, empty event trace), so re-running it is idempotent. -/
theorem C6_theorem (env : HostEnv) (tick i : Nat) (hs : List Elem)
    (h : ∀ e ∈ hs, e.filled = true) :
    processVisibleHearts env tick i hs = ⟨0, hs, tick, []⟩ :=
  scan_filled env tick i hs h

/-- Claim C6, witness: a concrete all-filled DOM. -/
theorem C6_witness :
    processVisibleHearts envNever 0 0 [⟨true, true⟩, ⟨false, true⟩] =
      ⟨0, [⟨true, true⟩, ⟨false, true⟩], 0, []⟩ :=
  C6_theorem envNever 0 0 [⟨true, true⟩, ⟨false, true⟩] (by decide)

/-- Claim C7, counterexample.  The aggressive scroll phase does not exit on
every run: against the ever-growing host `envGrow`, whose every scroll
command produces fresh movement below a receding bottom, the loop runs
forever (no fuel suffices), so the number of scroll commands in a phase is
not bounded in general. -/
theorem C7_counterexample : aggDivergesOnGrowingPage :=
  fun fuel => agg_grow_none fuel 0 pageGrow false (by decide)

/-- Claim C7, amended.  Provided the host's scroll responses never move the
position backwards and never beyond a bound `B`, the aggressive scroll
phase exits - either through the stabilized-at-bottom break or with the
attempt budget `maxAggressiveScrollAttemptsAtBottom` exhausted - and
issues at most `B + 9` scroll commands. -/
theorem C7_theorem (env : HostEnv) (B tick : Nat) (page : PageState)
    (hM : ∀ t p, p.scrollTop ≤ B →
      p.scrollTop ≤ (env.onScroll t p).scrollTop ∧
      (env.onScroll t p).scrollTop ≤ B)
    (hp : page.scrollTop ≤ B) :
    (aggressiveLoop env
        (maxAggressiveScrollAttemptsAtBottom + (B + 6 - page.scrollTop) + 1)
        tick page 0 false).map (aggOutcome (B + 9)) = some true := by
  obtain ⟨r, hr, hP, hlen⟩ := agg_mono_some env B hM
    (maxAggressiveScrollAttemptsAtBottom + (B + 6 - page.scrollTop))
    tick page 0 false (Nat.zero_le _) hp (by omega)
  rw [hr]
  simp only [Option.map_some', Option.some.injEq, aggOutcome,
    Bool.and_eq_true, Bool.or_eq_true, decide_eq_true_eq]
  refine ⟨?_, ?_⟩
  · rcases hP with h | h
    · exact Or.inl h
    · exact Or.inr h
  · simp only [maxAggressiveScrollAttemptsAtBottom] at hlen
    omega

/-- Claim C7, witness: the amended claim at the concrete bounded host
`envBound` with bound 100 and the page `pageOpen`. -/
theorem C7_witness :
    (aggressiveLoop envBound
        (maxAggressiveScrollAttemptsAtBottom +
          (100 + 6 - pageOpen.scrollTop) + 1)
        0 pageOpen 0 false).map (aggOutcome (100 + 9)) = some true :=
  C7_theorem envBound 100 0 pageOpen
    (fun t p hp => ⟨hp, Nat.le_refl 100⟩) (by decide)

/-- Claim C8.  In every terminating run the observer discipline holds: the
trace never subscribes while a subscription is outstanding, and the run
ends with no outstanding subscription (the wait-phase disconnect plus the
final disconnect before returning). -/
theorem C8_theorem (env : HostEnv) (fuel : Nat) (page : PageState) :
    (clickAllHearts env fuel page).map (fun p => obsScan false p.2.trace) =
      (clickAllHearts env fuel page).map (fun _ => some false) := by
  cases hrun : clickAllHearts env fuel page with
  | none => simp
  | some pr =>
    obtain ⟨s, st⟩ := pr
    obtain ⟨g1, g2, g3, g4, g5⟩ := run_inv env fuel page s st hrun
    simp [g5]

/-- Claim C9.  One pass clicks exactly the matched heart elements that are
visible and not filled, in document order - hidden or filled elements are
skipped without any click - and when every click succeeds, the pass trace
is precisely those clicks each followed by the fixed
`delayBetweenClicks` sleep. -/
theorem C9_theorem (env : HostEnv) (tick i : Nat) (hs : List Elem) :
    clickIdxs (processVisibleHearts env tick i hs).trace =
      actionableIdxs i hs ∧
    ∀ f : Elem → Elem, (∀ t e, env.onClick t e = Except.ok (f e)) →
      (processVisibleHearts env tick i hs).trace =
        okTrace (actionableIdxs i hs) ∧
      (processVisibleHearts env tick i hs).clicked =
        (actionableIdxs i hs).length := by
  refine ⟨scan_clickIdxs env tick i hs, fun f hf => ?_⟩
  rw [scan_ok env f hf]
  exact ⟨rfl, rfl⟩

/-- Claim C9, witness: a four-element DOM with one hidden and one filled
element against the filling host; exactly the two actionable elements are
clicked, with the delay after each. -/
theorem C9_witness :
    clickIdxs (processVisibleHearts envFill 0 0
      [⟨true, false⟩, ⟨false, false⟩, ⟨true, true⟩, ⟨true, false⟩]).trace =
      [0, 3] ∧
    (processVisibleHearts envFill 0 0
      [⟨true, false⟩, ⟨false, false⟩, ⟨true, true⟩, ⟨true, false⟩]).trace =
      okTrace [0, 3] ∧
    (processVisibleHearts envFill 0 0
      [⟨true, false⟩, ⟨false, false⟩, ⟨true, true⟩, ⟨true, false⟩]).clicked =
      2 := by
  obtain ⟨h1, h2⟩ := C9_theorem envFill 0 0
    [⟨true, false⟩, ⟨false, false⟩, ⟨true, true⟩, ⟨true, false⟩]
  obtain ⟨h3, h4⟩ := h2 (fun e => { e with filled := true }) (fun _ _ => rfl)
  refine ⟨by rw [h1]; decide, by rw [h3]; decide, by rw [h4]; decide⟩

/-- Claim C10.  The script keeps no record of clicked elements: the pass
count always equals the successful clicks of its own trace; against a host
that does not add the filled class (`envNever`), a pass leaves the DOM
unchanged and clicks every actionable element, so a repeated pass clicks
the same elements again with the same count and the same click events -
`totalHeartsClicked` counts non-throwing click invocations, not distinct
hearts. -/
theorem C10_theorem (env : HostEnv) (tick tick2 i : Nat) (hs : List Elem) :
    countOk (processVisibleHearts env tick i hs).trace =
      (processVisibleHearts env tick i hs).clicked ∧
    (processVisibleHearts envNever tick i hs).hearts = hs ∧
    (processVisibleHearts envNever tick i hs).clicked =
      (actionableIdxs i hs).length ∧
    (processVisibleHearts envNever tick2 i
        (processVisibleHearts envNever tick i hs).hearts).trace =
      (processVisibleHearts envNever tick i hs).trace ∧
    (processVisibleHearts envNever tick2 i
        (processVisibleHearts envNever tick i hs).hearts).clicked =
      (processVisibleHearts envNever tick i hs).clicked := by
  have hid := scan_ok envNever id (fun _ _ => rfl)
  refine ⟨scan_countOk env tick i hs, ?_, ?_, ?_, ?_⟩ <;>
    simp [hid, applyClicks_id]
